import Mathlib

/-!
Verification development for the universal MCP server's core adapters:
the SQLite database connector (`database_connector.py`), the document
reader (`document_reader.py`) and the file browser (`file_browser.py`).

Python values are embedded shallowly: dictionaries become association
lists, machine wall-clock timing is not modelled, and the SQLite engine
behind `execute_query` is an oracle parameter except where the adapter
itself constructs the statements (table creation and `SELECT *`), which
are modelled by an explicit in-memory store.
-/

/-- Embedded Python values, with `bool` a subtype of `int` as in CPython
(`isinstance(True, int)` holds). `none` is Python's `None`. -/
inductive PyVal where
  | none
  | bool (b : Bool)
  | int (i : Int)
  | float (q : Rat)
  | str (s : String)
deriving DecidableEq

/-- `isinstance(v, bool)` -/
def PyVal.isPyBool : PyVal → Bool
  | .bool _ => true
  | _ => false

/-- `isinstance(v, int)`: in Python booleans are ints. -/
def PyVal.isPyInt : PyVal → Bool
  | .bool _ => true
  | .int _ => true
  | _ => false

/-- `isinstance(v, (int, float))` -/
def PyVal.isPyNum : PyVal → Bool
  | .bool _ => true
  | .int _ => true
  | .float _ => true
  | _ => false

/-- A Python dict row, embedded as an association list with distinct keys
understood positionally (first binding wins, as `dict` keys are unique). -/
def Row : Type := List (String × PyVal)

instance : DecidableEq Row := inferInstanceAs (DecidableEq (List (String × PyVal)))

/-- `row.get(k)` / `row.get(k, None)`: `none` when the key is absent. -/
def rowGet (r : Row) (k : String) : Option PyVal :=
  (r.find? (fun p => p.1 == k)).map (fun p => p.2)

/-- `row.keys()` -/
def rowKeys (r : Row) : List String := r.map (fun p => p.1)

/-- Errors raised by the embedded Python code. -/
inductive PyError where
  | valueError (msg : String)
  | fileNotFoundError (msg : String)
  | indexError
  | attributeError (msg : String)
  | engineError (msg : String)
deriving DecidableEq

section QueryExecution

/-- Python `str.strip()` on a character list: drop whitespace from both ends. -/
def pyStrip (l : List Char) : List Char :=
  ((l.dropWhile Char.isWhitespace).reverse.dropWhile Char.isWhitespace).reverse

/-- Python `str.split()` (no separator): split on runs of whitespace,
discarding empty pieces.  `acc` holds the current token reversed. -/
def splitWs : List Char → List Char → List (List Char)
  | [], acc => if acc = [] then [] else [acc.reverse]
  | c :: cs, acc =>
      if c.isWhitespace then
        if acc = [] then splitWs cs [] else acc.reverse :: splitWs cs []
      else splitWs cs (c :: acc)

/-- `query.strip().upper().split()[0]`, as an `Option` (Python raises
`IndexError` when the token list is empty). -/
def firstToken (q : String) : Option String :=
  (splitWs ((pyStrip q.data).map Char.toUpper) []).head?.map String.mk

/-- The observable state of a `sqlite3` cursor right after `execute`:
what `fetchall`, `description`, `rowcount` and `lastrowid` would yield.
`lastrowid = 0` stands for the falsy values (0 / `None`). -/
structure CursorState where
  fetchAll : List Row
  description : Option (List String)
  rowcount : Int
  lastrowid : Nat
deriving DecidableEq

/-- The dictionary returned by `execute_query`, with `Option` marking the
keys that may be absent. -/
structure QueryResult where
  success : Bool
  query_type : String
  rows_returned : Option Nat
  columns : Option (List String)
  data : Option (List Row)
  rows_affected : Option Int
  last_insert_id : Option Nat
deriving DecidableEq

/-- One `_mcp_query_history` row (wall-clock `execution_time` omitted). -/
structure HistoryEntry where
  query : String
  parameters : Option (List PyVal)
  rows_affected : Int
  success : Bool
  error_message : Option String
deriving DecidableEq

/-- `json.dumps(params) if params else None`: an empty parameter list is
logged as `None`. -/
def paramsRepr (params : List PyVal) : Option (List PyVal) :=
  if params = [] then none else some params

/-- `_log_query`: appends to the history table; a failing history table
(`logOk = false`) swallows the write and leaves the history unchanged. -/
def logQuery (logOk : Bool) (hist : List HistoryEntry) (e : HistoryEntry) :
    List HistoryEntry :=
  if logOk then hist ++ [e] else hist

/-- Everything observable about one `execute_query` call: the value
returned or error raised, the resulting history table, and how many
history writes were attempted. -/
structure ExecOutcome where
  result : Except PyError QueryResult
  history : List HistoryEntry
  logAttempts : Nat

/-- `execute_query(query, params)`.  The engine (`cursor.execute`) is an
oracle from statement and parameters to either an error message or a
cursor state.  Control flow follows the source: run the statement, take
the first token of the trimmed uppercased query (raising `IndexError` on
an all-whitespace query, caught by the outer handler which logs and
re-raises), then branch on `SELECT`; every path logs exactly once. -/
def executeQuery (engine : String → List PyVal → Except String CursorState)
    (logOk : Bool) (hist : List HistoryEntry)
    (query : String) (params : List PyVal) : ExecOutcome :=
  match engine query params with
  | .error m =>
      { result := .error (.engineError m)
        history := logQuery logOk hist ⟨query, paramsRepr params, 0, false, some m⟩
        logAttempts := 1 }
  | .ok cur =>
    match firstToken query with
    | Option.none =>
        { result := .error .indexError
          history := logQuery logOk hist
            ⟨query, paramsRepr params, 0, false, some "list index out of range"⟩
          logAttempts := 1 }
    | Option.some qt =>
      if qt = "SELECT" then
        { result := .ok
            { success := true
              query_type := "SELECT"
              rows_returned := some cur.fetchAll.length
              columns := some (cur.description.getD [])
              data := some cur.fetchAll
              rows_affected := none
              last_insert_id := none }
          history := logQuery logOk hist
            ⟨query, paramsRepr params, (cur.fetchAll.length : Int), true, none⟩
          logAttempts := 1 }
      else
        { result := .ok
            { success := true
              query_type := qt
              rows_returned := none
              columns := none
              data := none
              rows_affected := some cur.rowcount
              last_insert_id :=
                if qt = "INSERT" ∧ cur.lastrowid ≠ 0 then some cur.lastrowid
                else none }
          history := logQuery logOk hist
            ⟨query, paramsRepr params, cur.rowcount, true, none⟩
          logAttempts := 1 }

end QueryExecution

section TypeInference

/-- The character-level sanitization in `_infer_columns`:
`''.join(c if c.isalnum() or c == '_' else '_' for c in str(col_name))`. -/
def sanitizeBase (s : String) : String :=
  String.mk (s.data.map (fun c => if c.isAlphanum ∨ c = '_' then c else '_'))

/-- Total form of the column-name sanitization (the source additionally
indexes `clean_name[0]`, which raises on an empty name; see `cleanName`). -/
def sanitize (s : String) : String :=
  match (sanitizeBase s).data with
  | [] => sanitizeBase s
  | c :: _ => if c.isAlpha then sanitizeBase s else "col_" ++ sanitizeBase s

/-- Column-name cleaning as the source performs it: sanitize the characters,
then test `clean_name[0].isalpha()` — an `IndexError` on an empty name. -/
def cleanName (s : String) : Except PyError String :=
  match (sanitizeBase s).data with
  | [] => .error .indexError
  | c :: _ => .ok (if c.isAlpha then sanitizeBase s else "col_" ++ sanitizeBase s)

/-- The union of all keys over the sample rows (`all_columns`), as a
duplicate-free list (Python uses a `set`; iteration order is determinized
here). -/
def allCols (sample : List Row) : List String :=
  ((sample.map rowKeys).flatten).dedup

/-- `[row.get(col_name) for row in sample_data if row.get(col_name) is not None]` -/
def columnValues (k : String) (sample : List Row) : List PyVal :=
  sample.filterMap (fun r =>
    match rowGet r k with
    | Option.some v => if v = PyVal.none then Option.none else Option.some v
    | Option.none => Option.none)

/-- The per-column type test of `_infer_columns`: empty after filtering →
TEXT; all-bool → BOOLEAN (checked first); all-int → INTEGER; all int-or-float
→ REAL; otherwise TEXT. -/
def classify (values : List PyVal) : String :=
  if values = [] then "TEXT"
  else if values.all PyVal.isPyBool then "BOOLEAN"
  else if values.all PyVal.isPyInt then "INTEGER"
  else if values.all PyVal.isPyNum then "REAL"
  else "TEXT"

/-- `columns[clean_name] = t`: dict update (overwrite or append). -/
def assocSet (l : List (String × String)) (k v : String) : List (String × String) :=
  if l.any (fun p => p.1 == k) then
    l.map (fun p => if p.1 == k then (k, v) else p)
  else l ++ [(k, v)]

/-- `columns.get(k)` on the inferred mapping. -/
def lookupCol (l : List (String × String)) (k : String) : Option String :=
  (l.find? (fun p => p.1 == k)).map (fun p => p.2)

/-- `_infer_columns(sample_data)`: for each column name seen in the sample,
clean the name (which can raise) and record the classified type of its
non-null values. -/
def inferColumns (sample : List Row) : Except PyError (List (String × String)) :=
  (allCols sample).foldlM
    (fun acc k =>
      (cleanName k).map (fun cn => assocSet acc cn (classify (columnValues k sample))))
    []

end TypeInference

section TableStore

/-- The in-memory image of the SQLite store the adapter owns: user tables
(name, column names, rows of positional values) plus the `_mcp_metadata`
description table. -/
structure DB where
  tables : List (String × (List String × List (List PyVal)))
  meta : List (String × String)
deriving DecidableEq

/-- `table_name.replace('_', '').isalnum()` (Python's `isalnum` is false on
the empty string). -/
def validTableName (name : String) : Bool :=
  let rest := name.data.filter (fun c => c ≠ '_')
  !rest.isEmpty && rest.all Char.isAlphanum

/-- ASCII lowercasing for identifier comparison: SQLite compares table and
column names case-insensitively (ASCII case folding). -/
def lowerStr (s : String) : String := String.mk (s.data.map Char.toLower)

/-- The engine's handling of the generated `CREATE TABLE name (cols)`:
fails if the table exists, if there are no column definitions (a SQLite
syntax error), or on a duplicate column name.  SQLite compares both table
and column names case-insensitively (`a`/`A` is a duplicate; `CREATE
TABLE T` clashes with an existing `t`). -/
def createTable (db : DB) (t : String) (cols : List String) : Except String DB :=
  if db.tables.any (fun e => lowerStr e.1 == lowerStr t) then
    .error ("table " ++ t ++ " already exists")
  else if cols.isEmpty then
    .error "incomplete input"
  else if ¬ (cols.map lowerStr).Nodup then
    .error "duplicate column name"
  else
    .ok { db with tables := db.tables ++ [(t, (cols, []))] }

/-- The engine's handling of the generated parameterized `INSERT`: append
the positional values to the named table's rows (table names resolve
case-insensitively, as in SQLite). -/
def insertRow (db : DB) (t : String) (vals : List PyVal) : DB :=
  { db with
    tables := db.tables.map (fun e =>
      if lowerStr e.1 == lowerStr t then (e.1, (e.2.1, e.2.2 ++ [vals])) else e) }

/-- `INSERT OR REPLACE INTO _mcp_metadata (table_name, description)`. -/
def metaUpsert (db : DB) (t descr : String) : DB :=
  { db with
    meta :=
      if db.meta.any (fun p => p.1 == t) then
        db.meta.map (fun p => if p.1 == t then (t, descr) else p)
      else db.meta ++ [(t, descr)] }

/-- `create_table_from_data(table_name, data, description)`: reject empty
data and invalid names, infer the schema from the first 10 rows, create
the table, insert every row (`row.get(col, None)` keyed by the *cleaned*
column names), and upsert the description.  Returns the new store and
`rows_inserted`. -/
def create_table_from_data (db : DB) (name : String) (data : List Row)
    (descr : Option String) : Except PyError (DB × Nat) :=
  if data = [] then .error (.valueError "Data cannot be empty")
  else if ¬ validTableName name then
    .error (.valueError "Table name must be alphanumeric (underscores allowed)")
  else
    match inferColumns (data.take 10) with
    | .error e => .error e
    | .ok cols =>
      match createTable db name (cols.map (fun c => c.1)) with
      | .error m => .error (.engineError m)
      | .ok db1 =>
        let db2 := data.foldl
          (fun d row =>
            insertRow d name (cols.map (fun c => (rowGet row c.1).getD PyVal.none)))
          db1
        let db3 := match descr with
          | Option.some ds => metaUpsert db2 name ds
          | Option.none => db2
        .ok (db3, data.length)

end TableStore

section DocumentReader

/-- Per-path metadata the filesystem oracle supplies (the relevant slice of
`stat`, `mimetypes.guess_type` and `os.access`). -/
structure FileMeta where
  size : Nat
  mtime : Nat
  ctime : Nat
  mime : Option String
  readable : Bool
  writable : Bool
  executable : Bool
  content : Option String
deriving DecidableEq

/-- What a path resolves to on disk. -/
inductive PathKind where
  | missing
  | file (meta : FileMeta)
  | dir (meta : FileMeta)
deriving DecidableEq

/-- `Path(p).name`: the final path component. -/
def baseName (p : String) : String :=
  String.mk ((p.data.reverse.takeWhile (fun c => c ≠ '/')).reverse)

/-- `Path(p).suffix`: the final component's extension including the dot;
empty when the only dot is leading or trailing. -/
def pySuffix (p : String) : String :=
  let name := (baseName p).data
  match (name.reverse.findIdx? (fun c => c = '.')) with
  | Option.none => ""
  | Option.some j =>
    let i := name.length - 1 - j
    if 0 < i ∧ i < name.length - 1 then String.mk (name.drop i) else ""

/-- The extensions registered in `self.supported_formats`. -/
def supportedFormats : List String :=
  [".pdf", ".docx", ".doc", ".xlsx", ".xls", ".csv"]

/-- `format` after auto-detection: `"auto"` maps to the lowercased suffix. -/
def resolveFormat (path fmt : String) : String :=
  if fmt = "auto" then (pySuffix path).toLower else fmt

/-- The metadata dict `read_document` computes up front. -/
structure DocMetadata where
  file_path : String
  file_name : String
  file_size : Nat
  format : String
  modified_time : Nat
  created_time : Nat
deriving DecidableEq

/-- The up-front metadata for a path that stats as `meta` under a resolved
format. -/
def mkDocMetadata (path : String) (meta : FileMeta) (fmt : String) : DocMetadata :=
  ⟨path, baseName path, meta.size, fmt, meta.mtime, meta.ctime⟩

/-- The envelope `read_document` returns: success with content, or the
error envelope that still carries the metadata. -/
inductive ReadOutcome where
  | ok (metadata : DocMetadata) (content : String)
  | fail (metadata : DocMetadata) (error : String)
deriving DecidableEq

/-- The metadata of either envelope. -/
def ReadOutcome.metadata : ReadOutcome → DocMetadata
  | .ok md _ => md
  | .fail md _ => md

/-- `read_document(file_path, format)`: raise not-found for a missing
path, a value error for a non-regular file, resolve the format, raise a
value error when no extractor is registered, compute the metadata, then
run the format's extractor (an oracle from path and format to content or
an error message); extractor failures are swallowed into a
`success: false` envelope that keeps the metadata. -/
def read_document (fs : String → PathKind)
    (extract : String → String → Except String String)
    (path fmt : String) : Except PyError ReadOutcome :=
  match fs path with
  | .missing => .error (.fileNotFoundError ("File not found: " ++ path))
  | .dir _ => .error (.valueError ("Path is not a file: " ++ path))
  | .file meta =>
    let fmt' := resolveFormat path fmt
    if fmt' ∉ supportedFormats then
      .error (.valueError ("Unsupported format: " ++ fmt'))
    else
      let md := mkDocMetadata path meta fmt'
      match extract path fmt' with
      | .ok c => .ok (.ok md c)
      | .error e => .ok (.fail md e)

/-- A parsed dataframe: column names and row dicts. -/
structure Df where
  cols : List String
  rows : List Row
deriving DecidableEq

/-- The CSV content dict built by `_read_csv` after parsing: `data` is the
full row list only when there are at most 1000 rows; beyond that a
`sample_data` key with the first 100 rows and a summary note appear
instead (`data` keeps its initial empty value). -/
structure CsvContent where
  data : List Row
  sample_data : Option (List Row)
  note : Option String
  rows : Nat
  columns : Nat
deriving DecidableEq

/-- The row-inclusion policy of `_read_csv`. -/
def readCsvContent (df : Df) : CsvContent :=
  { data := if df.rows.length ≤ 1000 then df.rows else []
    sample_data := if df.rows.length ≤ 1000 then none else some (df.rows.take 100)
    note :=
      if df.rows.length ≤ 1000 then none
      else some "Large file - showing first 100 rows only"
    rows := df.rows.length
    columns := df.cols.length }

/-- One sheet's dict as `_read_excel` builds it: `data` is the full row
list when the sheet has at most 1000 rows and empty otherwise, while
`sample_data` is always present — the first 10 rows for large sheets,
empty otherwise.  There is no note field. -/
structure SheetContent where
  sheet_name : String
  rows : Nat
  columns : Nat
  data : List Row
  sample_data : List Row
deriving DecidableEq

/-- The row-inclusion policy of `_read_excel` for one sheet. -/
def readExcelSheet (name : String) (df : Df) : SheetContent :=
  { sheet_name := name
    rows := df.rows.length
    columns := df.cols.length
    data := if df.rows.length ≤ 1000 then df.rows else []
    sample_data := if df.rows.length > 1000 then df.rows.take 10 else [] }

end DocumentReader

section FileBrowser

/-- A directory tree: the filesystem as `_scan_directory` walks it. -/
inductive FSTree where
  | file (name : String)
  | dir (name : String) (children : List FSTree)

/-- One entry of a directory listing, restricted to the fields the
traversal itself determines; `children`/`childCount` are the optional keys
attached only when the scan recursed into the entry. -/
inductive Item where
  | mk (name : String) (type : String) (children : Option (List Item))
       (childCount : Option Nat)

/-- The `name` field. -/
def Item.name : Item → String
  | .mk n _ _ _ => n

/-- The `type` field. -/
def Item.type : Item → String
  | .mk _ t _ _ => t

/-- The optional `children` field. -/
def Item.children : Item → Option (List Item)
  | .mk _ _ c _ => c

/-- The optional `child_count` field. -/
def Item.childCount : Item → Option Nat
  | .mk _ _ _ c => c

/-- The sort key comparison of `sorted(items, key=lambda x: (type, name))`. -/
def itemLe (a b : Item) : Bool :=
  if a.type = b.type then decide (a.name ≤ b.name) else decide (a.type < b.type)

/-- Stable insertion into a sorted item list. -/
def insertItem (a : Item) : List Item → List Item
  | [] => [a]
  | b :: bs => if itemLe a b then a :: b :: bs else b :: insertItem a bs

/-- The stable sort applied to each directory level's items. -/
def sortItems : List Item → List Item
  | [] => []
  | a :: as => insertItem a (sortItems as)

/-- The loop body of `_scan_directory`: walk the entries, skipping hidden
names unless requested, and recurse into a subdirectory only while
`current_depth < max_depth - 1`, attaching the recursively scanned (and
sorted) children plus their count. -/
def scanForest : List FSTree → Bool → Int → Int → List Item
  | [], _, _, _ => []
  | FSTree.file n :: ts, ih, maxD, d =>
      if ih = false ∧ n.startsWith "." then scanForest ts ih maxD d
      else Item.mk n "file" none none :: scanForest ts ih maxD d
  | FSTree.dir n cs :: ts, ih, maxD, d =>
      if ih = false ∧ n.startsWith "." then scanForest ts ih maxD d
      else
        (if d < maxD - 1 then
          let kids := sortItems (scanForest cs ih maxD (d + 1))
          Item.mk n "directory" (some kids) (some kids.length)
         else Item.mk n "directory" none none) :: scanForest ts ih maxD d
  termination_by l _ _ _ => sizeOf l

/-- `_scan_directory(path, include_hidden, max_depth, current_depth)`:
scan the entries and return them sorted by `(type, name)`. -/
def scan_directory (entries : List FSTree) (ih : Bool) (maxD d : Int) : List Item :=
  sortItems (scanForest entries ih maxD d)

/-- `browse_directory`'s traversal: the scan starts at depth 0. -/
def browse_items (entries : List FSTree) (ih : Bool) (maxD : Int) : List Item :=
  scan_directory entries ih maxD 0

mutual

/-- `itemDepthLe n it` says the item nests children at most `n` levels
deep (`n = 0`: no `children` key at all). -/
def itemDepthLe : Nat → Item → Bool
  | _, Item.mk _ _ Option.none _ => true
  | 0, Item.mk _ _ (Option.some _) _ => false
  | Nat.succ n, Item.mk _ _ (Option.some cs) _ => itemsDepthLe n cs

/-- `itemDepthLe` over a list of items. -/
def itemsDepthLe : Nat → List Item → Bool
  | _, [] => true
  | n, i :: is => itemDepthLe n i && itemsDepthLe n is

end

end FileBrowser

section FileInfo

/-- The slice of `_get_item_info`'s dict that `get_file_info` goes on to
inspect: `mime_type`'s outer `Option` is key presence (absent for
directories), the inner one is the possibly-`None` guessed type. -/
structure ItemInfo where
  name : String
  path : String
  type : String
  size : Nat
  mime_type : Option (Option String)
  content_preview : Option String
  line_count : Option Nat
deriving DecidableEq

/-- `_get_item_info(path)` for an existing path. -/
def get_item_info (path : String) (k : PathKind) : ItemInfo :=
  match k with
  | .file meta =>
      { name := baseName path, path := path, type := "file", size := meta.size
        mime_type := some meta.mime, content_preview := none, line_count := none }
  | _ =>
      { name := baseName path, path := path, type := "directory", size := 0
        mime_type := none, content_preview := none, line_count := none }

/-- `d.get(k, default)` on the `mime_type` key: the default only applies
when the key is absent; a stored `None` is returned as `None`. -/
def pyDictGet (field : Option (Option String)) (dflt : String) : Option String :=
  match field with
  | Option.none => some dflt
  | Option.some v => v

/-- The value `get_file_info` returns. -/
structure FileInfoResult where
  file_info : ItemInfo
  is_readable : Bool
  is_writable : Bool
  is_executable : Bool
deriving DecidableEq

/-- `get_file_info(file_path)`: raise not-found on a missing path, gather
the item info, then — for regular files — evaluate
`item_info.get("mime_type", "").startswith("text/")`; when the guessed
mime type was `None` this calls `startswith` on `None` and raises an
`AttributeError`, which the surrounding handler re-raises.  Text files
under 1 MiB get a 1000-character preview and a derived line count
(preview failures are swallowed). -/
def get_file_info (fs : String → PathKind) (path : String) :
    Except PyError FileInfoResult :=
  match fs path with
  | .missing => .error (.fileNotFoundError ("Path does not exist: " ++ path))
  | .dir meta =>
      .ok ⟨get_item_info path (.dir meta), meta.readable, meta.writable,
           meta.executable⟩
  | .file meta =>
    let info := get_item_info path (.file meta)
    match pyDictGet info.mime_type "" with
    | Option.none =>
        .error (.attributeError "NoneType object has no attribute startswith")
    | Option.some m =>
      if m.startsWith "text/" then
        let info' :=
          if meta.size < 1048576 then
            match meta.content with
            | Option.some c =>
                { info with
                  content_preview := some (c.take 1000)
                  line_count := some ((c.take 1000).data.count '\n' + 1) }
            | Option.none => info
          else info
        .ok ⟨info', meta.readable, meta.writable, meta.executable⟩
      else .ok ⟨info, meta.readable, meta.writable, meta.executable⟩

end FileInfo

deriving instance DecidableEq for Except

section BasicLemmas

theorem pyStrip_of_all_ws (l : List Char) (h : l.all Char.isWhitespace) :
    pyStrip l = [] := by
  have h1 : l.dropWhile Char.isWhitespace = [] := by
    rw [List.dropWhile_eq_nil_iff]
    intro a ha
    exact (List.all_eq_true.mp h) a ha
  simp [pyStrip, h1]

theorem firstToken_of_all_ws (q : String) (h : q.data.all Char.isWhitespace) :
    firstToken q = none := by
  simp [firstToken, pyStrip_of_all_ws q.data h, splitWs]

end BasicLemmas

section ClaimExecuteQuery

/-- Fixture: an engine that accepts every statement with an empty cursor. -/
def engineOkEmpty : String → List PyVal → Except String CursorState :=
  fun _ _ => Except.ok ⟨[], some [], -1, 0⟩

/-- Fixture: an engine that rejects every statement. -/
def engineBoom : String → List PyVal → Except String CursorState :=
  fun _ _ => Except.error "boom"

/-- C1: for every statement whose first whitespace-delimited token after
trimming is `SELECT` (case-insensitively, via the uppercased token), a
successful `execute_query` result carries `rows_returned` and no
`rows_affected`; for any other leading token it carries `rows_affected`
and no `rows_returned` — exactly one of the two fields is present. -/
theorem execute_query_rows_field_dichotomy
    (engine : String → List PyVal → Except String CursorState)
    (logOk : Bool) (hist : List HistoryEntry) (q : String) (params : List PyVal)
    (cur : CursorState) (qt : String)
    (hok : engine q params = Except.ok cur)
    (htok : firstToken q = some qt) :
    ((executeQuery engine logOk hist q params).result.toOption.map
        (fun r => r.rows_returned.isSome)) = some (qt == "SELECT")
    ∧ ((executeQuery engine logOk hist q params).result.toOption.map
        (fun r => r.rows_affected.isSome)) = some (!(qt == "SELECT"))
    ∧ ((executeQuery engine logOk hist q params).result.toOption.map
        (fun r => r.rows_returned.isSome != r.rows_affected.isSome)) = some true := by
  by_cases h : qt = "SELECT" <;>
    simp [executeQuery, hok, htok, h, Except.toOption]

theorem execute_query_rows_field_dichotomy_witness :
    ((executeQuery engineOkEmpty true [] "SELECT 1" []).result.toOption.map
        (fun r => r.rows_returned.isSome)) = some ("SELECT" == "SELECT")
    ∧ ((executeQuery engineOkEmpty true [] "SELECT 1" []).result.toOption.map
        (fun r => r.rows_affected.isSome)) = some (!("SELECT" == "SELECT"))
    ∧ ((executeQuery engineOkEmpty true [] "SELECT 1" []).result.toOption.map
        (fun r => r.rows_returned.isSome != r.rows_affected.isSome)) = some true :=
  execute_query_rows_field_dichotomy engineOkEmpty true [] "SELECT 1" []
    ⟨[], some [], -1, 0⟩ "SELECT" rfl (by decide)

/-- C7: every `execute_query` call attempts exactly one history write; with
a working history table exactly one entry is appended (the prior history is
preserved as a prefix); with a broken history table the history is
unchanged and the returned result is identical (logging failures are
swallowed); and when the engine fails, the original engine error is what
the caller sees re-raised. -/
theorem execute_query_logging_contract
    (engine : String → List PyVal → Except String CursorState)
    (logOk : Bool) (hist : List HistoryEntry) (q : String) (params : List PyVal)
    (m : String) :
    (executeQuery engine logOk hist q params).logAttempts = 1
    ∧ (executeQuery engine true hist q params).history.length = hist.length + 1
    ∧ (executeQuery engine true hist q params).history.take hist.length = hist
    ∧ (executeQuery engine false hist q params).history = hist
    ∧ (executeQuery engine false hist q params).result
        = (executeQuery engine true hist q params).result
    ∧ (engine q params = Except.error m →
        (executeQuery engine logOk hist q params).result
          = Except.error (PyError.engineError m)) := by
  have htake : ∀ e : HistoryEntry, (hist ++ [e]).take hist.length = hist := by
    intro e
    simp [List.take_left hist [e]]
  cases hengine : engine q params with
  | error m' =>
      refine ⟨?_, ?_, ?_, ?_, ?_, ?_⟩ <;>
        simp [executeQuery, hengine, logQuery, htake]
  | ok cur =>
      cases htok : firstToken q with
      | none =>
          refine ⟨?_, ?_, ?_, ?_, ?_, ?_⟩ <;>
            simp [executeQuery, hengine, htok, logQuery, htake]
      | some qt =>
          by_cases hsel : qt = "SELECT" <;>
            (refine ⟨?_, ?_, ?_, ?_, ?_, ?_⟩ <;>
              simp [executeQuery, hengine, htok, hsel, logQuery, htake])

theorem execute_query_logging_contract_witness :
    (executeQuery engineBoom true [] "DELETE FROM t" []).logAttempts = 1
    ∧ (executeQuery engineBoom true [] "DELETE FROM t" []).history.length
        = List.length ([] : List HistoryEntry) + 1
    ∧ (executeQuery engineBoom true [] "DELETE FROM t" []).history.take
        (List.length ([] : List HistoryEntry)) = []
    ∧ (executeQuery engineBoom false [] "DELETE FROM t" []).history = []
    ∧ (executeQuery engineBoom false [] "DELETE FROM t" []).result
        = (executeQuery engineBoom true [] "DELETE FROM t" []).result
    ∧ (engineBoom "DELETE FROM t" [] = Except.error "boom" →
        (executeQuery engineBoom true [] "DELETE FROM t" []).result
          = Except.error (PyError.engineError "boom")) :=
  execute_query_logging_contract engineBoom true [] "DELETE FROM t" [] "boom"

/-- C10: an empty or all-whitespace statement that the engine itself
accepts makes `execute_query` raise an `IndexError` (taking the first
token of an empty token list) instead of returning a result; the failure
is still recorded as one history entry. -/
theorem execute_query_blank_statement_index_error
    (engine : String → List PyVal → Except String CursorState)
    (logOk : Bool) (hist : List HistoryEntry) (q : String) (params : List PyVal)
    (cur : CursorState)
    (hblank : q.data.all Char.isWhitespace)
    (hok : engine q params = Except.ok cur) :
    (executeQuery engine logOk hist q params).result = Except.error PyError.indexError
    ∧ (executeQuery engine true hist q params).history
        = hist ++ [⟨q, paramsRepr params, 0, false, some "list index out of range"⟩]
    ∧ (executeQuery engine logOk hist q params).logAttempts = 1 := by
  have htok := firstToken_of_all_ws q hblank
  refine ⟨?_, ?_, ?_⟩ <;> simp [executeQuery, hok, htok, logQuery]

theorem execute_query_blank_statement_index_error_witness :
    (executeQuery engineOkEmpty true [] "   " []).result
        = Except.error PyError.indexError
    ∧ (executeQuery engineOkEmpty true [] "   " []).history
        = [] ++ [⟨"   ", paramsRepr [], 0, false, some "list index out of range"⟩]
    ∧ (executeQuery engineOkEmpty true [] "   " []).logAttempts = 1 :=
  execute_query_blank_statement_index_error engineOkEmpty true [] "   " []
    ⟨[], some [], -1, 0⟩ (by decide) rfl

end ClaimExecuteQuery

section ClaimEmptyInput

/-- C8 counterexample: `_infer_columns` applied to the empty sequence does
not raise a `ValueError` — it returns the empty column mapping. -/
theorem infer_columns_empty_returns_empty : inferColumns [] = Except.ok [] := rfl

/-- C8 (amended): on empty input `_infer_columns` itself returns an empty
mapping; the `ValueError` for empty input is raised by
`create_table_from_data` before inference is ever reached. -/
theorem empty_input_value_error_from_create
    (db : DB) (t : String) (descr : Option String) :
    inferColumns [] = Except.ok []
    ∧ create_table_from_data db t [] descr
        = Except.error (PyError.valueError "Data cannot be empty") :=
  ⟨rfl, by simp [create_table_from_data]⟩

end ClaimEmptyInput

section ClaimFileInfo

/-- Fixture: a regular file whose mime type cannot be guessed. -/
def metaNoMime : FileMeta :=
  { size := 10, mtime := 5, ctime := 3, mime := none
    readable := true, writable := true, executable := false
    content := some "hello" }

/-- Fixture: a filesystem with a single unguessable regular file. -/
def fsNoMime : String → PathKind := fun _ => PathKind.file metaNoMime

/-- C9: for an existing, readable regular file whose guessed mime type is
`None`, `get_file_info` raises an `AttributeError` (from
`item_info.get("mime_type", "").startswith("text/")` — the dict default
does not apply to a stored `None`) instead of returning the file's
information. -/
theorem get_file_info_none_mime_attribute_error
    (fs : String → PathKind) (path : String) (meta : FileMeta)
    (hfile : fs path = PathKind.file meta)
    (hmime : meta.mime = none)
    (_hread : meta.readable = true) :
    get_file_info fs path
      = Except.error (PyError.attributeError
          "NoneType object has no attribute startswith") := by
  simp [get_file_info, hfile, get_item_info, pyDictGet, hmime]

theorem get_file_info_none_mime_attribute_error_witness :
    get_file_info fsNoMime "/data/blob.xyz"
      = Except.error (PyError.attributeError
          "NoneType object has no attribute startswith") :=
  get_file_info_none_mime_attribute_error fsNoMime "/data/blob.xyz" metaNoMime
    rfl rfl rfl

end ClaimFileInfo

section ClaimReadDocument

/-- Fixture: metadata of a small CSV file. -/
def metaCsv : FileMeta :=
  { size := 42, mtime := 7, ctime := 6, mime := some "text/csv"
    readable := true, writable := true, executable := false
    content := some "a,b" }

/-- Fixture: a filesystem with one CSV file at `doc.csv`. -/
def fsOneCsv : String → PathKind :=
  fun p => if p = "doc.csv" then PathKind.file metaCsv else PathKind.missing

/-- Fixture: an extractor that always fails. -/
def extractFail : String → String → Except String String :=
  fun _ _ => Except.error "bad parse"

/-- C3: `read_document` raises not-found for a missing path and a value
error for a non-regular file or an unregistered resolved format, but once
past those pre-checks it computes the file metadata up front and swallows
extractor failures into a `success: false` envelope that still carries
that same metadata (and a success carries it identically). -/
theorem read_document_error_envelope
    (fs : String → PathKind) (extract : String → String → Except String String)
    (path fmt : String) (meta : FileMeta) (e c : String) :
    (fs path = PathKind.missing →
      read_document fs extract path fmt
        = Except.error (PyError.fileNotFoundError ("File not found: " ++ path)))
    ∧ (fs path = PathKind.dir meta →
      read_document fs extract path fmt
        = Except.error (PyError.valueError ("Path is not a file: " ++ path)))
    ∧ (fs path = PathKind.file meta →
      resolveFormat path fmt ∉ supportedFormats →
      read_document fs extract path fmt
        = Except.error (PyError.valueError
            ("Unsupported format: " ++ resolveFormat path fmt)))
    ∧ (fs path = PathKind.file meta →
      resolveFormat path fmt ∈ supportedFormats →
      extract path (resolveFormat path fmt) = Except.error e →
      read_document fs extract path fmt
        = Except.ok (ReadOutcome.fail
            (mkDocMetadata path meta (resolveFormat path fmt)) e))
    ∧ (fs path = PathKind.file meta →
      resolveFormat path fmt ∈ supportedFormats →
      extract path (resolveFormat path fmt) = Except.ok c →
      read_document fs extract path fmt
        = Except.ok (ReadOutcome.ok
            (mkDocMetadata path meta (resolveFormat path fmt)) c)) := by
  refine ⟨?_, ?_, ?_, ?_, ?_⟩
  · intro h; simp [read_document, h]
  · intro h; simp [read_document, h]
  · intro h hsup; simp [read_document, h, hsup]
  · intro h hsup hext; simp [read_document, h, hsup, hext]
  · intro h hsup hext; simp [read_document, h, hsup, hext]

theorem read_document_error_envelope_witness :
    (fsOneCsv "doc.csv" = PathKind.missing →
      read_document fsOneCsv extractFail "doc.csv" "auto"
        = Except.error (PyError.fileNotFoundError ("File not found: " ++ "doc.csv")))
    ∧ (fsOneCsv "doc.csv" = PathKind.dir metaCsv →
      read_document fsOneCsv extractFail "doc.csv" "auto"
        = Except.error (PyError.valueError ("Path is not a file: " ++ "doc.csv")))
    ∧ (fsOneCsv "doc.csv" = PathKind.file metaCsv →
      resolveFormat "doc.csv" "auto" ∉ supportedFormats →
      read_document fsOneCsv extractFail "doc.csv" "auto"
        = Except.error (PyError.valueError
            ("Unsupported format: " ++ resolveFormat "doc.csv" "auto")))
    ∧ (fsOneCsv "doc.csv" = PathKind.file metaCsv →
      resolveFormat "doc.csv" "auto" ∈ supportedFormats →
      extractFail "doc.csv" (resolveFormat "doc.csv" "auto") = Except.error "bad parse" →
      read_document fsOneCsv extractFail "doc.csv" "auto"
        = Except.ok (ReadOutcome.fail
            (mkDocMetadata "doc.csv" metaCsv (resolveFormat "doc.csv" "auto"))
            "bad parse"))
    ∧ (fsOneCsv "doc.csv" = PathKind.file metaCsv →
      resolveFormat "doc.csv" "auto" ∈ supportedFormats →
      extractFail "doc.csv" (resolveFormat "doc.csv" "auto") = Except.ok "a,b" →
      read_document fsOneCsv extractFail "doc.csv" "auto"
        = Except.ok (ReadOutcome.ok
            (mkDocMetadata "doc.csv" metaCsv (resolveFormat "doc.csv" "auto"))
            "a,b")) :=
  read_document_error_envelope fsOneCsv extractFail "doc.csv" "auto" metaCsv
    "bad parse" "a,b"

end ClaimReadDocument

section ClaimRowLimit

/-- Fixture: a single-column dataframe with exactly 1000 rows. -/
def df1000 : Df := ⟨["c"], List.replicate 1000 []⟩

/-- Fixture: a single-column dataframe with exactly 1001 rows. -/
def df1001 : Df := ⟨["c"], List.replicate 1001 []⟩

theorem df1000_len : df1000.rows.length = 1000 :=
  List.length_replicate 1000 []

theorem df1001_len : df1001.rows.length = 1001 :=
  List.length_replicate 1001 []

/-- C4 counterexample: a 1001-row CSV does not get a 10-row sample — its
`sample_data` holds the first 100 rows. -/
theorem csv_1001_sample_is_100_rows :
    ((readCsvContent df1001).sample_data.getD []).length ≠ 10
    ∧ ((readCsvContent df1001).sample_data.getD []).length = 100 := by
  have h : ((readCsvContent df1001).sample_data.getD []).length = 100 := by
    simp only [readCsvContent, df1001_len]
    norm_num
    simp only [List.length_take, df1001_len]
    omega
  exact ⟨by rw [h]; norm_num, h⟩

/-- C4 (amended): a CSV or sheet with exactly 1000 rows includes the full
data (no sample, no note); at 1001 rows a CSV switches to a
`sample_data` of the first 100 rows plus an explanatory note, while a
spreadsheet sheet switches to a 10-row `sample_data` and carries no note
field at all. -/
theorem csv_sheet_row_limit (dfa dfb : Df) (sheet : String)
    (ha : dfa.rows.length = 1000) (hb : dfb.rows.length = 1001) :
    (readCsvContent dfa).data = dfa.rows
    ∧ (readCsvContent dfa).sample_data = none
    ∧ (readCsvContent dfa).note = none
    ∧ (readExcelSheet sheet dfa).data = dfa.rows
    ∧ (readExcelSheet sheet dfa).sample_data = []
    ∧ (readCsvContent dfb).data = []
    ∧ (readCsvContent dfb).sample_data = some (dfb.rows.take 100)
    ∧ (dfb.rows.take 100).length = 100
    ∧ (readCsvContent dfb).note = some "Large file - showing first 100 rows only"
    ∧ (readExcelSheet sheet dfb).data = []
    ∧ (readExcelSheet sheet dfb).sample_data = dfb.rows.take 10
    ∧ (dfb.rows.take 10).length = 10 := by
  refine ⟨?_, ?_, ?_, ?_, ?_, ?_, ?_, ?_, ?_, ?_, ?_, ?_⟩ <;>
    simp [readCsvContent, readExcelSheet, ha, hb, List.length_take]

theorem csv_sheet_row_limit_witness :
    (readCsvContent df1000).data = df1000.rows
    ∧ (readCsvContent df1000).sample_data = none
    ∧ (readCsvContent df1000).note = none
    ∧ (readExcelSheet "s" df1000).data = df1000.rows
    ∧ (readExcelSheet "s" df1000).sample_data = []
    ∧ (readCsvContent df1001).data = []
    ∧ (readCsvContent df1001).sample_data = some (df1001.rows.take 100)
    ∧ (df1001.rows.take 100).length = 100
    ∧ (readCsvContent df1001).note
        = some "Large file - showing first 100 rows only"
    ∧ (readExcelSheet "s" df1001).data = []
    ∧ (readExcelSheet "s" df1001).sample_data = df1001.rows.take 10
    ∧ (df1001.rows.take 10).length = 10 :=
  csv_sheet_row_limit df1000 df1001 "s" df1000_len df1001_len

end ClaimRowLimit

section ClaimTypeInference

theorem sanitizeBase_data (s : String) :
    (sanitizeBase s).data
      = s.data.map (fun c => if c.isAlphanum ∨ c = '_' then c else '_') := rfl

theorem string_data_eq_nil_iff (s : String) : s.data = [] ↔ s = "" :=
  ⟨fun h => String.ext h, fun h => by rw [h]⟩

theorem cleanName_of_ne_empty (s : String) (h : s ≠ "") :
    cleanName s = Except.ok (sanitize s) := by
  have hdata : s.data ≠ [] := fun hc => h ((string_data_eq_nil_iff s).mp hc)
  have hbase : (sanitizeBase s).data ≠ [] := by
    rw [sanitizeBase_data]
    simpa using hdata
  cases hb : (sanitizeBase s).data with
  | nil => exact absurd hb hbase
  | cons c rest => simp [cleanName, sanitize, hb]

theorem infer_fold_ok (f : String → String) (ks : List String)
    (acc : List (String × String))
    (hkeys : ∀ k ∈ ks, k ≠ "")
    (hinj : (ks.map sanitize).Nodup)
    (hacc : ∀ k ∈ ks, ∀ p ∈ acc, p.1 ≠ sanitize k) :
    ks.foldlM
        (fun acc k => (cleanName k).map (fun cn => assocSet acc cn (f k))) acc
      = Except.ok (acc ++ ks.map (fun k => (sanitize k, f k))) := by
  induction ks generalizing acc with
  | nil =>
      simp only [List.foldlM_nil, List.map_nil, List.append_nil]
      rfl
  | cons k ks ih =>
      have hk : k ≠ "" := hkeys k (List.mem_cons_self k ks)
      have hnotin : assocSet acc (sanitize k) (f k) = acc ++ [(sanitize k, f k)] := by
        have : acc.any (fun p => p.1 == sanitize k) = false := by
          rw [List.any_eq_false]
          intro p hp
          simpa using hacc k (List.mem_cons_self k ks) p hp
        simp [assocSet, this]
      have hstep :
          (cleanName k).map (fun cn => assocSet acc cn (f k))
            = Except.ok (acc ++ [(sanitize k, f k)]) := by
        rw [cleanName_of_ne_empty k hk]
        simp [Except.map, hnotin]
      rw [List.foldlM_cons, hstep]
      have hrest := ih (acc ++ [(sanitize k, f k)])
        (fun q hq => hkeys q (List.mem_cons_of_mem k hq))
        ((List.nodup_cons.mp (by simpa using hinj)).2)
        (fun q hq p hp => by
          rcases List.mem_append.mp hp with hpa | hpb
          · exact hacc q (List.mem_cons_of_mem k hq) p hpa
          · have hpk : p = (sanitize k, f k) := by simpa using hpb
            have hne : sanitize k ≠ sanitize q := by
              intro hcontra
              have : sanitize q ∈ ks.map sanitize := List.mem_map_of_mem sanitize hq
              rw [← hcontra] at this
              exact (List.nodup_cons.mp (by simpa using hinj)).1 this
            rw [hpk]
            exact hne)
      simpa [List.append_assoc] using hrest

theorem infer_columns_ok (sample : List Row)
    (hkeys : ∀ k ∈ allCols sample, k ≠ "")
    (hinj : ((allCols sample).map sanitize).Nodup) :
    inferColumns sample
      = Except.ok ((allCols sample).map
          (fun k => (sanitize k, classify (columnValues k sample)))) := by
  have h := infer_fold_ok (fun k => classify (columnValues k sample))
    (allCols sample) [] hkeys hinj (by intro k _ p hp; cases hp)
  simpa [inferColumns] using h

theorem lookup_map_of_nodup (f : String → String) (ks : List String) (k : String)
    (hk : k ∈ ks) (hinj : (ks.map sanitize).Nodup) :
    lookupCol (ks.map (fun q => (sanitize q, f q))) (sanitize k) = some (f k) := by
  induction ks with
  | nil => cases hk
  | cons k0 ks ih =>
      by_cases heq : sanitize k0 = sanitize k
      · have hkk : k = k0 := by
          rcases List.mem_cons.mp hk with h | h
          · exact h
          · exfalso
            have : sanitize k ∈ ks.map sanitize := List.mem_map_of_mem sanitize h
            rw [← heq] at this
            exact (List.nodup_cons.mp (by simpa using hinj)).1 this
        subst hkk
        have hfind : List.find? (fun p => p.1 == sanitize k)
            ((k :: ks).map (fun q => (sanitize q, f q))) = some (sanitize k, f k) := by
          rw [List.map_cons]
          exact List.find?_cons_of_pos _ (by simp)
        simp [lookupCol, hfind]
      · have hk' : k ∈ ks := by
          rcases List.mem_cons.mp hk with h | h
          · exact absurd (congrArg sanitize h.symm) heq
          · exact h
        have htail := ih hk' ((List.nodup_cons.mp (by simpa using hinj)).2)
        unfold lookupCol at htail ⊢
        rw [List.map_cons, List.find?_cons_of_neg _ (by simp [heq])]
        exact htail

theorem classify_mem_range (vs : List PyVal) :
    classify vs ∈ ["BOOLEAN", "INTEGER", "REAL", "TEXT"] := by
  unfold classify
  split
  · simp
  · split
    · simp
    · split
      · simp
      · split <;> simp

/-- C2 counterexample: a sample whose only key is the empty string makes
`_infer_columns` raise (`clean_name[0]` on an empty cleaned name) instead
of returning a mapping. -/
theorem infer_columns_empty_key_raises :
    inferColumns [[("", PyVal.int 1)]] = Except.error PyError.indexError := by
  decide

/-- C2 (amended): for a non-empty sample whose keys are all non-empty and
sanitize injectively, `_infer_columns` returns a column for every key
(under the sanitized name), typed by dropping nulls and classifying
all-boolean → BOOLEAN (before the numeric tests), else all-int → INTEGER,
else all-int-or-float → REAL, else TEXT, with an empty filtered value set
defaulting to TEXT; every assigned type is one of the four. -/
theorem infer_columns_spec (sample : List Row) (k : String)
    (_hne : sample ≠ [])
    (hk : k ∈ allCols sample)
    (hkeys : ∀ q ∈ allCols sample, q ≠ "")
    (hinj : ((allCols sample).map sanitize).Nodup) :
    (inferColumns sample).toOption.bind (fun cols => lookupCol cols (sanitize k))
      = some (classify (columnValues k sample))
    ∧ classify (columnValues k sample) ∈ ["BOOLEAN", "INTEGER", "REAL", "TEXT"] := by
  constructor
  · rw [infer_columns_ok sample hkeys hinj]
    simpa [Except.toOption] using
      lookup_map_of_nodup (fun q => classify (columnValues q sample))
        (allCols sample) k hk hinj
  · exact classify_mem_range (columnValues k sample)

/-- Fixture: a sample with an int-then-bool column and an all-null column. -/
def inferSample : List Row :=
  [[("a", PyVal.int 1)], [("a", PyVal.bool true)], [("b", PyVal.none)]]

theorem infer_columns_spec_witness :
    (inferColumns inferSample).toOption.bind
        (fun cols => lookupCol cols (sanitize "a"))
      = some (classify (columnValues "a" inferSample))
    ∧ classify (columnValues "a" inferSample)
        ∈ ["BOOLEAN", "INTEGER", "REAL", "TEXT"] :=
  infer_columns_spec inferSample "a" (by decide) (by decide) (by decide) (by decide)

end ClaimTypeInference

section ClaimDepthBound

theorem mem_insertItem (x a : Item) (l : List Item) :
    x ∈ insertItem a l ↔ x = a ∨ x ∈ l := by
  induction l with
  | nil => simp [insertItem]
  | cons b bs ih =>
      by_cases h : itemLe a b = true
      · simp [insertItem, h]
      · rw [insertItem, if_neg h, List.mem_cons, ih, List.mem_cons]
        tauto

theorem mem_sortItems (x : Item) (l : List Item) :
    x ∈ sortItems l ↔ x ∈ l := by
  induction l with
  | nil => simp [sortItems]
  | cons a as ih =>
      rw [sortItems, mem_insertItem, ih, List.mem_cons]

theorem itemDepthLe_none (n : Nat) (nm tp : String) (cc : Option Nat) :
    itemDepthLe n (Item.mk nm tp none cc) = true := by
  cases n <;> simp [itemDepthLe]

theorem itemDepthLe_zero_some (nm tp : String) (cs : List Item) (cc : Option Nat) :
    itemDepthLe 0 (Item.mk nm tp (some cs) cc) = false := by
  simp [itemDepthLe]

theorem itemDepthLe_succ_some (n : Nat) (nm tp : String) (cs : List Item)
    (cc : Option Nat) :
    itemDepthLe (n + 1) (Item.mk nm tp (some cs) cc) = itemsDepthLe n cs := by
  simp [itemDepthLe]

theorem itemsDepthLe_eq_forall (n : Nat) (l : List Item) :
    itemsDepthLe n l = true ↔ ∀ i ∈ l, itemDepthLe n i = true := by
  induction l with
  | nil => simp [itemsDepthLe]
  | cons i is ih => simp [itemsDepthLe, ih]

theorem itemDepthLe_zero_children_none (it : Item)
    (h : itemDepthLe 0 it = true) : it.children = none := by
  cases it with
  | mk nm tp ch cc =>
      cases ch with
      | none => rfl
      | some cs => rw [itemDepthLe_zero_some] at h; cases h

theorem itemDepthLe_mono (m : Nat) :
    ∀ (n : Nat) (it : Item), m ≤ n → itemDepthLe m it = true →
      itemDepthLe n it = true := by
  induction m with
  | zero =>
      intro n it _ h
      cases it with
      | mk nm tp ch cc =>
          cases ch with
          | none => exact itemDepthLe_none n nm tp cc
          | some cs => rw [itemDepthLe_zero_some] at h; cases h
  | succ m' ih =>
      intro n it hle h
      cases it with
      | mk nm tp ch cc =>
          cases ch with
          | none => exact itemDepthLe_none n nm tp cc
          | some cs =>
              cases n with
              | zero => omega
              | succ n' =>
                  rw [itemDepthLe_succ_some] at h ⊢
                  rw [itemsDepthLe_eq_forall] at h ⊢
                  intro i hi
                  exact ih n' i (by omega) (h i hi)

theorem scanForest_depth (fuel : Nat) :
    ∀ (entries : List FSTree) (ih : Bool) (maxD d : Int) (item : Item),
      sizeOf entries ≤ fuel → item ∈ scanForest entries ih maxD d →
      itemDepthLe ((maxD - 1 - d).toNat) item = true := by
  induction fuel with
  | zero =>
      intro entries ih maxD d item hsz _
      exfalso
      cases entries with
      | nil => simp at hsz
      | cons t ts => simp at hsz
  | succ fuel' IH =>
      intro entries ih maxD d item hsz hmem
      cases entries with
      | nil => simp [scanForest] at hmem
      | cons t ts =>
          have hts : sizeOf ts ≤ fuel' := by
            have h1 : 1 ≤ sizeOf t := by cases t <;> simp <;> omega
            simp at hsz
            omega
          cases t with
          | file n =>
              by_cases hh : (ih = false ∧ n.startsWith ".")
              · rw [scanForest, if_pos hh] at hmem
                exact IH ts ih maxD d item hts hmem
              · rw [scanForest, if_neg hh] at hmem
                rcases List.mem_cons.mp hmem with h | h
                · rw [h]; exact itemDepthLe_none _ n "file" none
                · exact IH ts ih maxD d item hts h
          | dir n cs =>
              have hcs : sizeOf cs ≤ fuel' := by
                simp at hsz
                omega
              by_cases hh : (ih = false ∧ n.startsWith ".")
              · rw [scanForest, if_pos hh] at hmem
                exact IH ts ih maxD d item hts hmem
              · rw [scanForest, if_neg hh] at hmem
                rcases List.mem_cons.mp hmem with h | h
                · by_cases hd : d < maxD - 1
                  · rw [if_pos hd] at h
                    have hbound : (maxD - 1 - d).toNat
                        = (maxD - 1 - (d + 1)).toNat + 1 := by omega
                    rw [h, hbound, itemDepthLe_succ_some, itemsDepthLe_eq_forall]
                    intro i hi
                    rw [mem_sortItems] at hi
                    exact IH cs ih maxD (d + 1) i hcs hi
                  · rw [if_neg hd] at h
                    rw [h]
                    exact itemDepthLe_none _ n "directory" none
                · exact IH ts ih maxD d item hts h

theorem scanForest_dir_has_children (entries : List FSTree) (ih : Bool)
    (maxD d : Int) (item : Item)
    (hmem : item ∈ scanForest entries ih maxD d)
    (htype : item.type = "directory") (hd : d < maxD - 1) :
    item.children.isSome = true := by
  induction entries with
  | nil => simp [scanForest] at hmem
  | cons t ts iht =>
      cases t with
      | file n =>
          by_cases hh : (ih = false ∧ n.startsWith ".")
          · rw [scanForest, if_pos hh] at hmem
            exact iht hmem
          · rw [scanForest, if_neg hh] at hmem
            rcases List.mem_cons.mp hmem with h | h
            · rw [h] at htype; simp [Item.type] at htype
            · exact iht h
      | dir n cs =>
          by_cases hh : (ih = false ∧ n.startsWith ".")
          · rw [scanForest, if_pos hh] at hmem
            exact iht hmem
          · rw [scanForest, if_neg hh] at hmem
            rcases List.mem_cons.mp hmem with h | h
            · rw [if_pos hd] at h
              rw [h]
              rfl
            · exact iht h

/-- C5: items returned by `_scan_directory` never nest children deeper
than `max_depth - 1 - current_depth` levels: with `max_depth = 1` no item
carries a `children` field, and with `max_depth = 2` directory items carry
exactly one level of children (which are themselves child-free). -/
theorem scan_directory_depth_bound (entries : List FSTree) (ih : Bool)
    (maxD d : Int) (item : Item)
    (hmem : item ∈ scan_directory entries ih maxD d) :
    itemDepthLe ((maxD - 1 - d).toNat) item = true
    ∧ (maxD = 1 → d = 0 → item.children = none)
    ∧ (maxD = 2 → d = 0 → itemDepthLe 1 item = true)
    ∧ (maxD = 2 → d = 0 → item.type = "directory" → item.children.isSome = true) := by
  have hmem' : item ∈ scanForest entries ih maxD d := by
    rw [scan_directory, mem_sortItems] at hmem
    exact hmem
  have hb := scanForest_depth (sizeOf entries) entries ih maxD d item
    (Nat.le_refl _) hmem'
  refine ⟨hb, ?_, ?_, ?_⟩
  · intro h1 h0
      ; subst h1; subst h0
      ; exact itemDepthLe_zero_children_none item (by simpa using hb)
  · intro h2 h0
      ; subst h2; subst h0
      ; simpa using hb
  · intro h2 h0 htype
      ; subst h2; subst h0
      ; exact scanForest_dir_has_children entries ih 2 0 item hmem' htype
          (by norm_num)

/-- Fixture: one visible directory containing one file. -/
def oneDirTree : List FSTree := [FSTree.dir "a" [FSTree.file "b"]]

/-- Fixture: the item `scan_directory oneDirTree true 2 0` produces. -/
def oneDirItem : Item :=
  Item.mk "a" "directory" (some [Item.mk "b" "file" none none]) (some 1)

theorem scan_directory_depth_bound_witness :
    itemDepthLe (((2 : Int) - 1 - 0).toNat) oneDirItem = true
    ∧ ((2 : Int) = 1 → (0 : Int) = 0 → oneDirItem.children = none)
    ∧ ((2 : Int) = 2 → (0 : Int) = 0 → itemDepthLe 1 oneDirItem = true)
    ∧ ((2 : Int) = 2 → (0 : Int) = 0 → oneDirItem.type = "directory" →
        oneDirItem.children.isSome = true) :=
  scan_directory_depth_bound oneDirTree true 2 0 oneDirItem
    (by
      have h : scan_directory oneDirTree true 2 0 = [oneDirItem] := by
        simp [scan_directory, oneDirTree, oneDirItem, scanForest, sortItems,
          insertItem]
      rw [h]
      exact List.mem_singleton.mpr rfl)

end ClaimDepthBound

section ClaimRoundTrip

theorem str_mk_data (t : String) : String.mk t.data = t := by
  cases t; rfl

end ClaimRoundTrip
